import Mathlib

/-!
Verification of the `openvpn_status` log parser (`parser.py`, `models.py`)
against its natural-language specification.

The Python source is embedded shallowly:

* `LogParser.__next__`, `rollback`, `expect_header`, `expect_list`,
  `_parse_fields`, `_parse` and `parse` become pure Lean functions over an
  explicit `ParserState` (remaining lines, last returned line, pending
  rollback flag).
* `Status`, `Client` and `Routing` from `models.py` become structures whose
  attributes are `Option`-valued (an attribute never assigned keeps the
  default `none`, matching an unpopulated descriptor).
* The field converters (`utils.py`) and the label-descriptor mechanism
  (`descriptors.py`) are not part of the given sources; they are external
  collaborators and are modelled from the spec, with the converter functions
  kept as parameters (`Converters`) so theorems can quantify over any
  contract-satisfying converter.
* Python exceptions become explicit results: `ParsingError` carries its
  `args` tuple as a `List String`; `AssignmentValueError` carries a message;
  any other exception (e.g. the `AttributeError` that would arise from
  reading a line when none was ever produced) is `crash`.
-/

/-- Lowercase hexadecimal digit, as produced by Python string escapes. -/
def hexDigit (n : Nat) : Char :=
  if n < 10 then Char.ofNat (48 + n) else Char.ofNat (87 + n)

/-- Two lowercase hex digits. -/
def hex2 (n : Nat) : String :=
  String.mk [hexDigit (n / 16 % 16), hexDigit (n % 16)]

/-- Four lowercase hex digits. -/
def hex4 (n : Nat) : String :=
  hex2 (n / 256) ++ hex2 (n % 256)

/-- Eight lowercase hex digits. -/
def hex8 (n : Nat) : String :=
  hex4 (n / 65536) ++ hex4 (n % 65536)

/-- One character of Python `str.encode('ascii', 'backslashreplace')`
followed by `.decode('ascii')`: characters below 128 (ASCII, including
control characters) are kept as they are; only non-ASCII characters are
replaced by backslash escapes. -/
def backslashReplaceChar (c : Char) : String :=
  if c.toNat < 128 then String.singleton c
  else if c.toNat < 256 then "\\x" ++ hex2 c.toNat
  else if c.toNat < 65536 then "\\u" ++ hex4 c.toNat
  else "\\U" ++ hex8 c.toNat

/-- The message sanitizer of `LogParser.parse`:
`text_type(e).encode('ascii', 'backslashreplace').decode('ascii')`. -/
def sanitizeMsg (s : String) : String :=
  String.join (s.toList.map backslashReplaceChar)

/-- Single-quote character (written via its code point). -/
def sqChar : Char := Char.ofNat 39

/-- Double-quote character. -/
def dqChar : Char := Char.ofNat 34

/-- Escaping of one character inside a Python `repr` of a string, where `q`
is the quote character chosen for the repr. -/
def pyReprChar (q : Char) (c : Char) : String :=
  if c = Char.ofNat 92 then "\\\\"
  else if c = q then "\\" ++ String.singleton q
  else if c = Char.ofNat 9 then "\\t"
  else if c = Char.ofNat 10 then "\\n"
  else if c = Char.ofNat 13 then "\\r"
  else if c.toNat < 32 ∨ c.toNat = 127 then "\\x" ++ hex2 c.toNat
  else String.singleton c

/-- Python `repr` of a string, as used by the `%r` conversions in the
parser's error messages: single quotes by default, double quotes when the
string contains a single quote but no double quote. -/
def pyRepr (s : String) : String :=
  let hasSq := s.toList.contains sqChar
  let hasDq := s.toList.contains dqChar
  if hasSq && !hasDq then
    String.singleton dqChar ++ String.join (s.toList.map (pyReprChar dqChar))
      ++ String.singleton dqChar
  else
    String.singleton sqChar ++ String.join (s.toList.map (pyReprChar sqChar))
      ++ String.singleton sqChar

/-- The whitespace characters stripped by Python `str.strip()` (for ASCII
text: space, tab, newline, carriage return, vertical tab, form feed). -/
def pySpaceChars : List Char :=
  [Char.ofNat 32, Char.ofNat 9, Char.ofNat 10, Char.ofNat 13, Char.ofNat 11, Char.ofNat 12]

/-- Python `str.strip()`: remove leading and trailing whitespace. -/
def pyStrip (s : String) : String :=
  String.mk
    ((((s.data.dropWhile (fun c => pySpaceChars.contains c)).reverse.dropWhile
      (fun c => pySpaceChars.contains c)).reverse))

/-- The splitting loop of Python `str.split(sep)` for a one-character
separator: accumulate the current field (in reverse) and emit it at each
separator. -/
def pySplitAux (sep : Char) : List Char → List Char → List (List Char)
  | [], acc => [acc.reverse]
  | c :: cs, acc =>
    if c = sep then acc.reverse :: pySplitAux sep cs []
    else pySplitAux sep cs (c :: acc)

/-- Python `str.split(sep)` for a one-character separator (`''.split(sep)`
is `['']`, adjacent separators produce empty fields). -/
def pySplit (sep : Char) (s : String) : List String :=
  (pySplitAux sep s.data []).map String.mk

/-- Whether `pre` is a prefix of `l`. -/
def listHeadMatches : List Char → List Char → Bool
  | [], _ => true
  | _ :: _, [] => false
  | p :: ps, c :: cs => p = c && listHeadMatches ps cs

/-- Python `str.startswith`. -/
def pyStartsWith (s pre : String) : Bool :=
  listHeadMatches pre.data s.data

/-- The numeric value of a nonempty all-digit character list, if any. -/
def digitsToNat : List Char → Option Nat → Option Nat
  | [], acc => acc
  | c :: cs, acc =>
    if c.toNat ≥ 48 ∧ c.toNat ≤ 57 then
      digitsToNat cs (some ((acc.getD 0) * 10 + (c.toNat - 48)))
    else none

/-- Decimal reading of a string: `some n` exactly on nonempty all-digit
strings. -/
def strToNat (s : String) : Option Nat :=
  digitsToNat s.data none

/-- Join string pieces with a one-character separator (used to restore the
remainder after splitting at the first separator). -/
def joinSep (sep : Char) : List String → String
  | [] => ""
  | [s] => s
  | s :: rest => s ++ String.singleton sep ++ joinSep sep rest

/-- Modelled from the spec: the timestamp converter (`utils.parse_time`,
not under `src/`) maps a textual absolute date/time to an absolute
point-in-time value and fails on unrecognized format. The concrete textual
format is external to this system, so the model wraps the recognized text
and treats exactly the nonempty strings as recognized. -/
structure Timestamp where
  raw : String
  deriving DecidableEq, Repr

/-- Structured peer address: host plus optional port (section 6 of the
spec). -/
structure PeerAddr where
  host : String
  port : Option String := none
  deriving DecidableEq, Repr

/-- Modelled from the spec: the virtual-address value produced by the
virtual-address converter (an IP address value; `utils.parse_vaddr` is not
under `src/`). -/
structure VAddr where
  addr : String
  deriving DecidableEq, Repr

/-- The four field converters of `utils.py` (external collaborators, not
under `src/`), kept abstract: each maps a raw field string to a typed value
or fails with a value error carrying a message. -/
structure Converters where
  time : String → Except String Timestamp
  peer : String → Except String PeerAddr
  filesize : String → Except String Nat
  vaddr : String → Except String VAddr

/-- Modelled from the spec: timestamp converter — "textual absolute
date/time → absolute point-in-time value; fails on unrecognized format".
The format itself is unspecified; the model recognizes any nonempty text. -/
def parse_time (s : String) : Except String Timestamp :=
  if s = "" then Except.error ("unrecognized time format: " ++ s)
  else Except.ok ⟨s⟩

/-- Modelled from the spec: peer-address converter — "`host:port` or bare
host → structured (host, optional port) pair" (split at the first colon). -/
def parse_peer (s : String) : Except String PeerAddr :=
  match pySplit ':' s with
  | [] => Except.ok ⟨s, none⟩
  | [h] => Except.ok ⟨h, none⟩
  | h :: rest => Except.ok ⟨h, some (joinSep ':' rest)⟩

/-- Modelled from the spec: byte-count converter — "textual integer →
non-negative integer; fails on non-numeric input". (Grouping characters
cannot occur in a comma-separated field, so they are not modelled.) -/
def parse_filesize (s : String) : Except String Nat :=
  match strToNat s with
  | some n => Except.ok n
  | none => Except.error ("invalid byte count: " ++ s)

/-- Modelled from the spec: virtual-address converter — "IP literal,
optionally followed by a CIDR-style suffix which is discarded → IP address
value". -/
def parse_vaddr (s : String) : Except String VAddr :=
  Except.ok ⟨((pySplit '/' s).headD s)⟩

/-- The converter bundle wired by `models.py` (whose `utils` import is
modelled from the spec). -/
def specConverters : Converters :=
  { time := parse_time, peer := parse_peer,
    filesize := parse_filesize, vaddr := parse_vaddr }

/-- `models.Client`: attributes start unpopulated (`none`). -/
structure Client where
  client_id : Option String := none
  common_name : Option String := none
  real_address : Option PeerAddr := none
  bytes_received : Option Nat := none
  bytes_sent : Option Nat := none
  connected_since : Option Timestamp := none
  deriving DecidableEq, Repr

/-- `models.Routing`: attributes start unpopulated (`none`). -/
structure Routing where
  virtual_address : Option VAddr := none
  common_name : Option String := none
  real_address : Option PeerAddr := none
  last_ref : Option Timestamp := none
  deriving DecidableEq, Repr

/-- `models.Status`: the Snapshot — two ordered mappings from common name
to record, modelled as association lists in insertion order. -/
structure Status where
  client_list : List (String × Client) := []
  routing_table : List (String × Routing) := []
  deriving DecidableEq, Repr

/-- The section label of `Status.client_list` (`LabelProperty(u'CLIENT_LIST', ...)`). -/
def client_list_label : String := "CLIENT_LIST"

/-- The section label of `Status.routing_table` (`LabelProperty(u'ROUTING_TABLE', ...)`). -/
def routing_table_label : String := "ROUTING_TABLE"

/-- Modelled from the spec: `text_type(...)` applied to a possibly
unpopulated string attribute (the descriptor default of `descriptors.py`,
not under `src/`, is modelled as Python `None`, whose `text_type` is
`"None"`). -/
def toText : Option String → String
  | some s => s
  | none => "None"

/-- Insert into an ordered mapping with Python `dict` semantics: an
existing key keeps its position and gets the new value, a new key is
appended. -/
def odInsert (d : List (String × α)) (kv : String × α) : List (String × α) :=
  if d.any (fun p => p.1 = kv.1) then
    d.map (fun p => if p.1 = kv.1 then (p.1, kv.2) else p)
  else d ++ [kv]

/-- The dict built by a Python dict comprehension over a list of key/value
pairs (later pairs with the same key overwrite earlier ones in place). -/
def dictOfPairs (ps : List (String × α)) : List (String × α) :=
  ps.foldl odInsert []

/-- `OrderedDict.update` with a dict argument: fold the argument's entries
into the base mapping. -/
def odUpdate (base other : List (String × α)) : List (String × α) :=
  other.foldl odInsert base

/-- Lookup in an ordered mapping. -/
def odGet (d : List (String × α)) (k : String) : Option α :=
  match d with
  | [] => none
  | p :: rest => if p.1 = k then some p.2 else odGet rest k

/-- Errors of the parsing internals: `ParsingError` with its `args` tuple,
`AssignmentValueError` with its message, or any other exception (`crash`). -/
inductive PErr where
  | parsing (args : List String)
  | assignment (msg : String)
  | crash
  deriving DecidableEq, Repr

/-- The state of a `LogParser`: the not-yet-consumed lines (`self.lines`),
the most recently returned line (`self._last_line`, `None` initially) and
the pending-rollback flag (`self._rollback`). -/
structure ParserState where
  lines : List String
  lastLine : Option String := none
  rollback : Bool := false
  deriving DecidableEq, Repr

/-- The fresh parser state for a list of raw lines (`LogParser.__init__`). -/
def initState (lines : List String) : ParserState :=
  { lines := lines, lastLine := none, rollback := false }

/-- `LogParser.rollback`: set the pending-rollback flag. It cannot fail. -/
def doRollback (st : ParserState) : ParserState :=
  { st with rollback := true }

/-- Result of one advance of the line cursor. -/
inductive NextR where
  | line (l : String)
  | stop
  | nullCrash
  deriving DecidableEq, Repr

/-- The scanning loop of `LogParser.__next__`: strip each raw line, skip
blank ones, return the first non-blank stripped line with the remaining raw
lines, or `none` on exhaustion. -/
def scanLines : List String → Option (String × List String)
  | [] => none
  | l :: rest =>
    let t := pyStrip l
    if t = "" then scanLines rest else some (t, rest)

/-- `LogParser.__next__`. With a pending rollback it clears the flag and
re-returns `_last_line` (returning Python `None` — modelled as `nullCrash`,
since every caller immediately calls a string method on the result — if no
line was ever returned). Otherwise it scans forward, records the returned
line in `_last_line`, and signals `stop` (`StopIteration`) on exhaustion. -/
def next_line (st : ParserState) : NextR × ParserState :=
  if st.rollback then
    match st.lastLine with
    | some l => (NextR.line l, { st with rollback := false })
    | none => (NextR.nullCrash, { st with rollback := false })
  else
    match scanLines st.lines with
    | some (t, rest) =>
      (NextR.line t, { lines := rest, lastLine := some t, rollback := false })
    | none => (NextR.stop, { st with lines := [] })

/-- Termination measure for the cursor: pending rollback counts as one
extra available read. -/
def stMeasure (st : ParserState) : Nat :=
  st.lines.length + (if st.rollback then 1 else 0)

/-- The scanning loop of `LogParser.expect_header`, with a structural fuel
argument (the zero-fuel branch is unreachable whenever the fuel exceeds the
cursor measure): advance until a line starting with the text `HEADER,`
followed by the section label is found; drop the first comma-separated
field of that line to get the label list; a label list of length 1 is a
malformed header; exhaustion before a match is an error. -/
def expect_headerF (header : String) : Nat → ParserState →
    Except PErr (List String × ParserState)
  | 0, _ => Except.error PErr.crash
  | fuel + 1, st =>
    match next_line st with
    | (NextR.stop, _) =>
      Except.error (PErr.parsing ["expected " ++ pyRepr header ++ " but got end of input"])
    | (NextR.nullCrash, _) => Except.error PErr.crash
    | (NextR.line l, st1) =>
      if pyStartsWith l ("HEADER," ++ header) then
        let labels := (pySplit ',' l).drop 1
        if labels.length = 1 then
          Except.error (PErr.parsing ["expected list of label but got " ++ pyRepr l])
        else Except.ok (labels, st1)
      else expect_headerF header fuel st1

/-- `LogParser.expect_header`, with sufficient fuel. -/
def expect_header (header : String) (st : ParserState) :
    Except PErr (List String × ParserState) :=
  expect_headerF header (stMeasure st + 1) st

/-- Result of `LogParser.expect_list`. -/
inductive ListRes where
  | ok (values : List String)
  | perr (args : List String)
  | crash
  deriving DecidableEq, Repr

/-- `LogParser.expect_list`: advance one line and split on the list
separator; a split of length 1 or exhaustion is a `ParsingError`. -/
def expect_list (st : ParserState) : ListRes × ParserState :=
  match next_line st with
  | (NextR.stop, st1) => (ListRes.perr ["expected list but got end of input"], st1)
  | (NextR.nullCrash, st1) => (ListRes.crash, st1)
  | (NextR.line l, st1) =>
    let splited := pySplit ',' l
    if splited.length = 1 then
      (ListRes.perr ["expected list but got " ++ pyRepr l], st1)
    else (ListRes.ok splited, st1)

/-- One attribute assignment on a `Client` (`setattr(instance, name, value)`
through the label descriptors of `models.Client`): a known label assigns
its attribute, applying the declared converter (whose failure is an
`AssignmentValueError` message); an unknown label assigns nothing. -/
def setClientField (conv : Converters) (c : Client) (label value : String) :
    Except String Client :=
  if label = "Client ID" then Except.ok { c with client_id := some value }
  else if label = "Common Name" then Except.ok { c with common_name := some value }
  else if label = "Real Address" then
    (conv.peer value).map (fun p => { c with real_address := some p })
  else if label = "Bytes Received" then
    (conv.filesize value).map (fun n => { c with bytes_received := some n })
  else if label = "Bytes Sent" then
    (conv.filesize value).map (fun n => { c with bytes_sent := some n })
  else if label = "Connected Since" then
    (conv.time value).map (fun t => { c with connected_since := some t })
  else Except.ok c

/-- One attribute assignment on a `Routing` record (label descriptors of
`models.Routing`). -/
def setRoutingField (conv : Converters) (r : Routing) (label value : String) :
    Except String Routing :=
  if label = "Virtual Address" then
    (conv.vaddr value).map (fun v => { r with virtual_address := some v })
  else if label = "Common Name" then Except.ok { r with common_name := some value }
  else if label = "Real Address" then
    (conv.peer value).map (fun p => { r with real_address := some p })
  else if label = "Last Ref" then
    (conv.time value).map (fun t => { r with last_ref := some t })
  else Except.ok r

/-- The assignment loop of `LogParser._parse_fields` over the
(label, value) pairs of one row, in index order: the first failing
assignment aborts the row (`AssignmentValueError`). -/
def mkRecordAux (setF : ρ → String → String → Except String ρ) :
    ρ → List (String × String) → Except String ρ
  | r, [] => Except.ok r
  | r, p :: rest =>
    match setF r p.1 p.2 with
    | Except.error m => Except.error m
    | Except.ok r1 => mkRecordAux setF r1 rest

/-- The per-row record construction of `LogParser._parse_fields`: a fresh
record, then one assignment per column index whose label is known, in index
order (labels not in the schema are skipped). With the field count already
checked equal to the label count, pairing label with value positionally is
`labels.zip values`. -/
def mkRecord (setF : ρ → String → String → Except String ρ) (init : ρ)
    (labels values : List String) : Except String ρ :=
  mkRecordAux setF init (labels.zip values)

/-- The row loop of `LogParser._parse_fields`, with a structural fuel
argument (the zero-fuel branch is unreachable whenever the fuel exceeds the
cursor measure): repeatedly `expect_list`; a `ParsingError` (exhaustion, no
separator, or a field count different from the label count) is caught, the
line is rolled back — `rollback` cannot fail, so the dead `except` around
it never fires — and the section ends. Otherwise a record is built (a
converter failure propagates as an `AssignmentValueError`) and collected. -/
def parse_fieldsF (setF : ρ → String → String → Except String ρ) (init : ρ)
    (labels : List String) : Nat → ParserState →
    Except PErr (List ρ × ParserState)
  | 0, _ => Except.error PErr.crash
  | fuel + 1, st =>
    match expect_list st with
    | (ListRes.crash, _) => Except.error PErr.crash
    | (ListRes.perr _, st1) => Except.ok ([], doRollback st1)
    | (ListRes.ok values, st1) =>
      if values.length ≠ labels.length then Except.ok ([], doRollback st1)
      else
        match mkRecord setF init labels values with
        | Except.error m => Except.error (PErr.assignment m)
        | Except.ok r =>
          match parse_fieldsF setF init labels fuel st1 with
          | Except.error e => Except.error e
          | Except.ok (rs, stf) => Except.ok (r :: rs, stf)

/-- `LogParser._parse_fields`, with sufficient fuel. -/
def parse_fields (setF : ρ → String → String → Except String ρ) (init : ρ)
    (labels : List String) (st : ParserState) :
    Except PErr (List ρ × ParserState) :=
  parse_fieldsF setF init labels (stMeasure st + 1) st

/-- The client section of `LogParser._parse`: locate the `CLIENT_LIST`
header, decode its rows, and key each record by the text of its common
name. -/
def clients_stage (conv : Converters) (st : ParserState) :
    Except PErr (List (String × Client) × ParserState) :=
  match expect_header client_list_label st with
  | Except.error e => Except.error e
  | Except.ok (labels, st1) =>
    match parse_fields (setClientField conv) {} labels st1 with
    | Except.error e => Except.error e
    | Except.ok (cs, st2) =>
      Except.ok (cs.map (fun c => (toText c.common_name, c)), st2)

/-- The routing section of `LogParser._parse`: locate the `ROUTING_TABLE`
header, decode its rows, and key each record by the text of its common
name. -/
def routes_stage (conv : Converters) (st : ParserState) :
    Except PErr (List (String × Routing) × ParserState) :=
  match expect_header routing_table_label st with
  | Except.error e => Except.error e
  | Except.ok (labels, st1) =>
    match parse_fields (setRoutingField conv) {} labels st1 with
    | Except.error e => Except.error e
    | Except.ok (rs, st2) =>
      Except.ok (rs.map (fun r => (toText r.common_name, r)), st2)

/-- `LogParser._parse`: build the `Status`, filling `client_list` and then
`routing_table` by updating the (empty) ordered mappings with the dict
comprehensions over the decoded records. (The terminator check of the
source is commented out and hence absent.) -/
def parse_impl (conv : Converters) (st : ParserState) : Except PErr Status :=
  match clients_stage conv st with
  | Except.error e => Except.error e
  | Except.ok (cps, st2) =>
    match routes_stage conv st2 with
    | Except.error e => Except.error e
    | Except.ok (rps, _) =>
      Except.ok { client_list := odUpdate [] (dictOfPairs cps),
                  routing_table := odUpdate [] (dictOfPairs rps) }

/-- The observable outcome of `LogParser.parse`: a `Status`, a
`ParsingError` with its `args`, or a non-`ParsingError` exception. -/
inductive ParseResult where
  | ok (s : Status)
  | err (args : List String)
  | crash
  deriving DecidableEq, Repr

/-- `LogParser.parse`: run `_parse`; an `AssignmentValueError` is re-raised
as `ParsingError('expected valid format: %s' % msg)` with the message
sanitized by ASCII `backslashreplace`; a `ParsingError` propagates with its
own `args`. -/
def parse_log (conv : Converters) (st : ParserState) : ParseResult :=
  match parse_impl conv st with
  | Except.ok s => ParseResult.ok s
  | Except.error (PErr.parsing args) => ParseResult.err args
  | Except.error (PErr.assignment m) =>
    ParseResult.err ["expected valid format: " ++ sanitizeMsg m]
  | Except.error PErr.crash => ParseResult.crash

/-- Parse from a list of raw lines (a fresh single-use parser instance). -/
def parseLines (conv : Converters) (lines : List String) : ParseResult :=
  parse_log conv (initState lines)

/-- `LogParser.fromstring(content).parse()`: strip the content and split on
the line separator. -/
def parseString (conv : Converters) (content : String) : ParseResult :=
  parseLines conv (pySplit (Char.ofNat 10) (pyStrip content))

/-- The last value among the pairs carrying the given key, if any — the
value a "later rows overwrite earlier ones" mapping must expose. -/
def lastVal : List (String × α) → String → Option α
  | [], _ => none
  | p :: rest, k =>
    match lastVal rest k with
    | some v => some v
    | none => if p.1 = k then some p.2 else none

/-- Scenario A exactly as the spec states it: the section-6 client header
with `Client ID` absent, one client row for `alice`, the routing header,
one routing row for `alice`. -/
def scenarioA_min : List String :=
  ["HEADER,CLIENT_LIST,Common Name,Real Address,Bytes Received,Bytes Sent,Connected Since",
   "CLIENT_LIST,alice,10.10.10.10:49502,334948,1973012,Thu Jun 18 04:23:03 2015",
   "HEADER,ROUTING_TABLE,Virtual Address,Common Name,Real Address,Last Ref",
   "ROUTING_TABLE,10.200.0.2,alice,10.10.10.10:49502,Thu Jun 18 04:23:05 2015"]

/-- Scenario A with the optional `Client ID` column included, so that the
client row shape (7 fields) differs from the routing header line's 6
fields. -/
def scenarioA_cid : List String :=
  ["HEADER,CLIENT_LIST,Common Name,Real Address,Bytes Received,Bytes Sent,Connected Since,Client ID",
   "CLIENT_LIST,alice,10.10.10.10:49502,334948,1973012,Thu Jun 18 04:23:03 2015,0",
   "HEADER,ROUTING_TABLE,Virtual Address,Common Name,Real Address,Last Ref",
   "ROUTING_TABLE,10.200.0.2,alice,10.10.10.10:49502,Thu Jun 18 04:23:05 2015"]

/-- The snapshot produced for `scenarioA_cid`. -/
def scenarioA_cid_status : Status :=
  { client_list := [("alice",
      { client_id := some "0", common_name := some "alice",
        real_address := some ⟨"10.10.10.10", some "49502"⟩,
        bytes_received := some 334948, bytes_sent := some 1973012,
        connected_since := some ⟨"Thu Jun 18 04:23:03 2015"⟩ })],
    routing_table := [("alice",
      { virtual_address := some ⟨"10.200.0.2"⟩, common_name := some "alice",
        real_address := some ⟨"10.10.10.10", some "49502"⟩,
        last_ref := some ⟨"Thu Jun 18 04:23:05 2015"⟩ })] }

/-- Scenario E (two client rows for `alice` with different byte counts),
with `Client ID` included so the row shape avoids the 6-field collision
with the routing header line. -/
def scenarioE_cid : List String :=
  ["HEADER,CLIENT_LIST,Common Name,Real Address,Bytes Received,Bytes Sent,Connected Since,Client ID",
   "CLIENT_LIST,alice,10.10.10.10:49502,100,200,Thu Jun 18 04:23:03 2015,0",
   "CLIENT_LIST,alice,10.10.10.10:49503,300,400,Thu Jun 18 04:25:03 2015,1",
   "HEADER,ROUTING_TABLE,Virtual Address,Common Name,Real Address,Last Ref",
   "ROUTING_TABLE,10.200.0.2,alice,10.10.10.10:49503,Thu Jun 18 04:25:05 2015"]

/-- Scenario C: a client row whose byte-count field is the non-numeric
`abc`. -/
def scenarioC_input : List String :=
  ["HEADER,CLIENT_LIST,Common Name,Bytes Received",
   "CLIENT_LIST,alice,abc"]

/-- A converter bundle satisfying the section-6 contracts whose byte-count
converter reports failures with a message containing a newline (the spec
constrains when converters fail, not their message text). -/
def ctrlConverters : Converters :=
  { specConverters with
    filesize := fun s =>
      match strToNat s with
      | some n => Except.ok n
      | none => Except.error ("bad size\n" ++ s) }

/-- Invariant of the line cursor relative to the original input: the
remembered last line is a stripped member of the input, and the remaining
lines are members of the input. -/
def CursorInv (orig : List String) (st : ParserState) : Prop :=
  (∀ l : String, st.lastLine = some l → ∃ l0 ∈ orig, l = pyStrip l0) ∧
  (∀ l ∈ st.lines, l ∈ orig)

/-- The keyed client pairs produced by the client section of a parse run
(empty if that stage fails). -/
def clientPairs (conv : Converters) (lines : List String) : List (String × Client) :=
  match clients_stage conv (initState lines) with
  | Except.ok (ps, _) => ps
  | Except.error _ => []

/-- The keyed routing pairs produced by the routing section of a parse run
(empty if either stage fails). -/
def routePairs (conv : Converters) (lines : List String) : List (String × Routing) :=
  match clients_stage conv (initState lines) with
  | Except.error _ => []
  | Except.ok (_, st2) =>
    match routes_stage conv st2 with
    | Except.ok (ps, _) => ps
    | Except.error _ => []

theorem scanLines_length {ls : List String} {t : String} {rest : List String}
    (h : scanLines ls = some (t, rest)) : rest.length < ls.length := by
  induction ls with
  | nil => simp [scanLines] at h
  | cons l ls ih =>
    simp only [scanLines] at h
    split at h
    · exact Nat.lt_trans (ih h) (by simp)
    · cases h
      simp

theorem next_line_measure {st : ParserState} {l : String} {st1 : ParserState}
    (h : next_line st = (NextR.line l, st1)) : stMeasure st1 < stMeasure st := by
  unfold next_line at h
  split at h
  · rename_i hrb
    cases hll : st.lastLine with
    | some s => rw [hll] at h; cases h; simp [stMeasure, hrb]
    | none => rw [hll] at h; cases h
  · rename_i hrb
    cases hscan : scanLines st.lines with
    | some p =>
      rw [hscan] at h
      cases h
      have := scanLines_length hscan
      simp only [Bool.not_eq_true] at hrb
      simp [stMeasure, hrb, this]
    | none => rw [hscan] at h; cases h

theorem expect_list_ok_measure {st : ParserState} {vs : List String}
    {st1 : ParserState} (h : expect_list st = (ListRes.ok vs, st1)) :
    stMeasure st1 < stMeasure st := by
  unfold expect_list at h
  cases hnl : next_line st with
  | mk r st2 =>
    rw [hnl] at h
    cases r with
    | line l =>
      simp only at h
      split at h
      · cases h
      · cases h
        exact next_line_measure hnl
    | stop => cases h
    | nullCrash => cases h

theorem expect_headerF_irrel (header : String) :
    ∀ f1 : Nat, ∀ f2 : Nat, ∀ st : ParserState, stMeasure st < f1 → stMeasure st < f2 →
    expect_headerF header f1 st = expect_headerF header f2 st := by
  intro f1
  induction f1 with
  | zero => intro f2 st h1; omega
  | succ f ih =>
    intro f2 st h1 h2
    cases f2 with
    | zero => omega
    | succ g =>
      simp only [expect_headerF]
      cases hnl : next_line st with
      | mk r st1 =>
        cases r with
        | line l =>
          simp only
          split
          · rfl
          · have hm := next_line_measure hnl
            exact ih g st1 (by omega) (by omega)
        | stop => rfl
        | nullCrash => rfl

/-- One unfolding of `expect_header` in terms of itself. -/
theorem expect_header_step (header : String) (st : ParserState) :
    expect_header header st =
      match next_line st with
      | (NextR.stop, _) =>
        Except.error (PErr.parsing ["expected " ++ pyRepr header ++ " but got end of input"])
      | (NextR.nullCrash, _) => Except.error PErr.crash
      | (NextR.line l, st1) =>
        if pyStartsWith l ("HEADER," ++ header) then
          let labels := (pySplit ',' l).drop 1
          if labels.length = 1 then
            Except.error (PErr.parsing ["expected list of label but got " ++ pyRepr l])
          else Except.ok (labels, st1)
        else expect_header header st1 := by
  unfold expect_header
  conv =>
    lhs
    rw [show stMeasure st + 1 = stMeasure st + 1 from rfl]
  simp only [expect_headerF]
  cases hnl : next_line st with
  | mk r st1 =>
    cases r with
    | line l =>
      simp only
      split
      · rfl
      · exact expect_headerF_irrel header (stMeasure st) (stMeasure st1 + 1) st1
          (next_line_measure hnl) (Nat.lt_succ_self _)
    | stop => rfl
    | nullCrash => rfl

theorem parse_fieldsF_irrel (setF : ρ → String → String → Except String ρ)
    (init : ρ) (labels : List String) :
    ∀ f1 : Nat, ∀ f2 : Nat, ∀ st : ParserState, stMeasure st < f1 → stMeasure st < f2 →
    parse_fieldsF setF init labels f1 st = parse_fieldsF setF init labels f2 st := by
  intro f1
  induction f1 with
  | zero => intro f2 st h1; omega
  | succ f ih =>
    intro f2 st h1 h2
    cases f2 with
    | zero => omega
    | succ g =>
      simp only [parse_fieldsF]
      cases hel : expect_list st with
      | mk r st1 =>
        cases r with
        | ok values =>
          simp only
          split
          · rfl
          · have hm := expect_list_ok_measure hel
            rw [ih g st1 (by omega) (by omega)]
        | perr args => rfl
        | crash => rfl

/-- One unfolding of `parse_fields` in terms of itself. -/
theorem parse_fields_step (setF : ρ → String → String → Except String ρ)
    (init : ρ) (labels : List String) (st : ParserState) :
    parse_fields setF init labels st =
      match expect_list st with
      | (ListRes.crash, _) => Except.error PErr.crash
      | (ListRes.perr _, st1) => Except.ok ([], doRollback st1)
      | (ListRes.ok values, st1) =>
        if values.length ≠ labels.length then Except.ok ([], doRollback st1)
        else
          match mkRecord setF init labels values with
          | Except.error m => Except.error (PErr.assignment m)
          | Except.ok r =>
            match parse_fields setF init labels st1 with
            | Except.error e => Except.error e
            | Except.ok (rs, stf) => Except.ok (r :: rs, stf) := by
  unfold parse_fields
  simp only [parse_fieldsF]
  cases hel : expect_list st with
  | mk r st1 =>
    cases r with
    | ok values =>
      simp only
      split
      · rfl
      · rw [parse_fieldsF_irrel setF init labels (stMeasure st) (stMeasure st1 + 1) st1
          (expect_list_ok_measure hel) (Nat.lt_succ_self _)]
        rfl
    | perr args => rfl
    | crash => rfl

/-- C1 (counterexample): on the exact input the claim describes — minimal
client header with `Client ID` absent, one client row for `alice`, routing
header, one routing row for `alice` — parse does not return a Snapshot: the
routing header line has exactly as many comma-separated fields (6) as the
client section's row shape, is consumed as a client data row, and its
`Bytes Received` field `Common Name` is rejected by the byte-count
converter, so parse raises `ParsingError`. -/
theorem c1_scenarioA_as_stated_fails :
    parseLines specConverters scenarioA_min =
      ParseResult.err ["expected valid format: invalid byte count: Common Name"] := by
  rfl

/-- C1 (amended): the minimal one-client/one-route input parses to the
claimed Snapshot once the client row shape differs from the routing
header's 6 fields — here by including the optional `Client ID` column: the
Snapshot's clients mapping has exactly the entry `alice` with the decoded
fields of the client row, and the routes mapping exactly the entry `alice`
with the decoded fields of the routing row. -/
theorem c1_scenarioA_with_client_id_ok :
    parseLines specConverters scenarioA_cid = ParseResult.ok scenarioA_cid_status := by
  rfl

theorem next_line_line_props {st : ParserState} {l : String} {st1 : ParserState}
    (h : next_line st = (NextR.line l, st1)) :
    st1.lastLine = some l ∧ st1.rollback = false := by
  unfold next_line at h
  split at h
  · cases hll : st.lastLine with
    | some s => rw [hll] at h; cases h; exact ⟨rfl, rfl⟩
    | none => rw [hll] at h; cases h
  · cases hscan : scanLines st.lines with
    | some p => rw [hscan] at h; cases h; exact ⟨rfl, rfl⟩
    | none => rw [hscan] at h; cases h

theorem pySplitAux_length_pos (sep : Char) :
    ∀ cs acc : List Char, 1 ≤ (pySplitAux sep cs acc).length := by
  intro cs
  induction cs with
  | nil => intro acc; simp [pySplitAux]
  | cons c cs ih =>
    intro acc
    simp only [pySplitAux]
    split
    · simp
    · exact ih _

theorem rollback_of_state {st : ParserState} {l : String}
    (hlast : st.lastLine = some l) (hrb : st.rollback = false) :
    next_line (doRollback st) = (NextR.line l, st) := by
  cases st with
  | mk lines lastLine rollback =>
    have h1 : lastLine = some l := hlast
    have h2 : rollback = false := hrb
    subst h1
    subst h2
    rfl

/-- C2 (counterexample): the header
`HEADER,CLIENT_LIST,Common Name,Real Address` declares k = 2 column labels
after the two fixed fields, but a following line `a,b` with exactly k = 2
comma-separated fields is NOT consumed as a data row: the row loop returns
no records, does not consume the line (it is rolled back and remains the
candidate for the next read), because the code compares row field counts
against the label list that still contains the section label (k + 1 = 3). -/
theorem c2_k_field_line_not_consumed :
    parse_fields (setClientField specConverters) {}
        ["CLIENT_LIST", "Common Name", "Real Address"]
        { lines := ["a,b"],
          lastLine := some "HEADER,CLIENT_LIST,Common Name,Real Address",
          rollback := false } =
      Except.ok (([] : List Client),
        { lines := [], lastLine := some "a,b", rollback := true }) := by
  rfl

/-- C2 (amended): for a section whose header retains the section label in
its label list (so the label list has k + 1 entries for k declared column
labels), a subsequent line is consumed as a data row exactly when it splits
on the separator into `labels.length` = k + 1 fields; the first line with a
different field count is not consumed — it is rolled back, the row loop
ends without error, and the very next read returns that same line as the
candidate header for the next section. -/
theorem c2_row_boundary (setF : ρ → String → String → Except String ρ)
    (init : ρ) (labels : List String) (st : ParserState) (l : String)
    (st1 : ParserState) (hlab : 2 ≤ labels.length)
    (hnl : next_line st = (NextR.line l, st1)) :
    (((pySplit ',' l).length = labels.length) →
      parse_fields setF init labels st =
        match mkRecord setF init labels (pySplit ',' l) with
        | Except.error m => Except.error (PErr.assignment m)
        | Except.ok r =>
          match parse_fields setF init labels st1 with
          | Except.error e => Except.error e
          | Except.ok (rs, stf) => Except.ok (r :: rs, stf)) ∧
    (((pySplit ',' l).length ≠ labels.length) →
      parse_fields setF init labels st = Except.ok ([], doRollback st1) ∧
      next_line (doRollback st1) = (NextR.line l, st1)) := by
  have hprops := next_line_line_props hnl
  have hreread : next_line (doRollback st1) = (NextR.line l, st1) :=
    rollback_of_state hprops.1 hprops.2
  have helP : (pySplit ',' l).length = 1 →
      expect_list st = (ListRes.perr ["expected list but got " ++ pyRepr l], st1) := by
    intro h1
    simp [expect_list, hnl, h1]
  have helOk : (pySplit ',' l).length ≠ 1 →
      expect_list st = (ListRes.ok (pySplit ',' l), st1) := by
    intro h1
    simp [expect_list, hnl, h1]
  constructor
  · intro heq
    have hne1 : (pySplit ',' l).length ≠ 1 := by omega
    rw [parse_fields_step, helOk hne1]
    dsimp only
    rw [if_neg (by omega : ¬ (pySplit ',' l).length ≠ labels.length)]
  · intro hne
    refine ⟨?_, hreread⟩
    by_cases h1 : (pySplit ',' l).length = 1
    · rw [parse_fields_step, helP h1]
    · rw [parse_fields_step, helOk h1]
      dsimp only
      rw [if_pos hne]

/-- C2 (witness): the amended boundary rule at a concrete input — with
labels `[CLIENT_LIST, Common Name]`, the 2-field line `CLIENT_LIST,bob` is
consumed as a data row yielding a client named `bob`. -/
theorem c2_row_boundary_witness :
    parse_fields (setClientField specConverters) {} ["CLIENT_LIST", "Common Name"]
        (initState ["CLIENT_LIST,bob"]) =
      Except.ok (([{ common_name := some "bob" }] : List Client),
        { lines := [], lastLine := some "CLIENT_LIST,bob", rollback := true }) := by
  have h := (c2_row_boundary (setClientField specConverters) ({} : Client)
    ["CLIENT_LIST", "Common Name"] (initState ["CLIENT_LIST,bob"]) "CLIENT_LIST,bob"
    { lines := [], lastLine := some "CLIENT_LIST,bob", rollback := false }
    (by decide) rfl).1 (by decide)
  rw [h]
  rfl

/-- C3 (counterexample): the header line `HEADER,CLIENT_LIST,Common Name`
leaves one label after the two fixed fields — "fewer than 2" per the claim
— yet `expect_header` accepts it (the code only rejects a split of exactly
2 fields), and a whole parse whose client header is exactly that line
succeeds when a routing section follows, instead of raising `ParseError`. -/
theorem c3_one_remaining_label_accepted :
    parseLines specConverters
        ["HEADER,CLIENT_LIST,Common Name",
         "HEADER,ROUTING_TABLE,Virtual Address,Common Name,Real Address,Last Ref",
         "ROUTING_TABLE,10.200.0.8,alice,10.10.10.10:49502,Thu Jun 18 04:23:05 2015"] =
      ParseResult.ok
        { client_list := [],
          routing_table := [("alice",
            { virtual_address := some ⟨"10.200.0.8"⟩, common_name := some "alice",
              real_address := some ⟨"10.10.10.10", some "49502"⟩,
              last_ref := some ⟨"Thu Jun 18 04:23:05 2015"⟩ })] } := by
  rfl

/-- C3 (amended): on the first matching line, `expect_header` raises
`ParsingError` exactly when the line's comma-split has 2 fields (zero
labels remain after the line tag and section label); any other matching
line — including one with a single remaining label, such as
`HEADER,CLIENT_LIST,Common Name` — is accepted, yielding the split minus
its first field as the label list. -/
theorem c3_expect_header_label_rule (header : String) (st : ParserState)
    (l : String) (st1 : ParserState)
    (hnl : next_line st = (NextR.line l, st1))
    (hmatch : pyStartsWith l ("HEADER," ++ header) = true) :
    (((pySplit ',' l).length = 2) →
      expect_header header st =
        Except.error (PErr.parsing ["expected list of label but got " ++ pyRepr l])) ∧
    (((pySplit ',' l).length ≠ 2) →
      expect_header header st = Except.ok ((pySplit ',' l).drop 1, st1)) := by
  have hsplit : 1 ≤ (pySplit ',' l).length := by
    simp only [pySplit, List.length_map]
    exact pySplitAux_length_pos ',' l.data []
  constructor
  · intro h2
    rw [expect_header_step, hnl]
    dsimp only
    rw [if_pos hmatch]
    rw [if_pos (by simp [List.length_drop, h2])]
  · intro h2
    rw [expect_header_step, hnl]
    dsimp only
    rw [if_pos hmatch]
    rw [if_neg (by simp [List.length_drop]; omega)]

/-- C3 (witness): on `HEADER,CLIENT_LIST,Common Name` (3 comma fields),
`expect_header` accepts and returns the label list
`[CLIENT_LIST, Common Name]`. -/
theorem c3_expect_header_label_rule_witness :
    expect_header "CLIENT_LIST" (initState ["HEADER,CLIENT_LIST,Common Name"]) =
      Except.ok (["CLIENT_LIST", "Common Name"],
        { lines := [], lastLine := some "HEADER,CLIENT_LIST,Common Name",
          rollback := false }) := by
  have h := (c3_expect_header_label_rule "CLIENT_LIST"
    (initState ["HEADER,CLIENT_LIST,Common Name"]) "HEADER,CLIENT_LIST,Common Name"
    { lines := [], lastLine := some "HEADER,CLIENT_LIST,Common Name", rollback := false }
    rfl (by decide)).2 (by decide)
  rw [h]
  rfl

/-- C4 (counterexample): `expect_header` for section label `CLIENT_LIST`
accepts the line `HEADER,CLIENT_LISTX,a,b`, whose second comma-separated
field `CLIENT_LISTX` merely has `CLIENT_LIST` as a proper prefix — the
claim says such a line must not be accepted. -/
theorem c4_prefix_extension_accepted :
    expect_header "CLIENT_LIST" (initState ["HEADER,CLIENT_LISTX,a,b"]) =
      Except.ok (["CLIENT_LISTX", "a", "b"],
        { lines := [], lastLine := some "HEADER,CLIENT_LISTX,a,b",
          rollback := false }) := by
  rfl

theorem listHeadMatches_self_append :
    ∀ p e : List Char, listHeadMatches p (p ++ e) = true := by
  intro p
  induction p with
  | nil => intro e; rfl
  | cons c cs ih =>
    intro e
    simp only [List.cons_append, listHeadMatches]
    simp [ih e]

theorem pyStartsWith_append (s t : String) : pyStartsWith (s ++ t) s = true := by
  simp only [pyStartsWith, String.data_append]
  exact listHeadMatches_self_append s.data t.data

/-- C4 (amended): `expect_header(section_label)` accepts a line exactly
when the line's raw text begins with the string `HEADER,` ++ section_label
(and the label-count check passes); in particular every extension
`HEADER,` ++ section_label ++ ext of that prefix is accepted — the second
comma-separated field need not equal section_label, it may extend it. -/
theorem c4_header_match_is_prefix_match (header ext : String) (st st1 : ParserState)
    (hnl : next_line st = (NextR.line ("HEADER," ++ header ++ ext), st1))
    (hlen : (pySplit ',' ("HEADER," ++ header ++ ext)).length ≠ 2) :
    expect_header header st =
      Except.ok ((pySplit ',' ("HEADER," ++ header ++ ext)).drop 1, st1) := by
  rw [expect_header_step, hnl]
  dsimp only
  rw [if_pos (by rw [String.append_assoc]; exact pyStartsWith_append ("HEADER," ++ header) ext)]
  rw [if_neg (by
    simp only [List.length_drop]
    have h1 : 1 ≤ (pySplit ',' ("HEADER," ++ header ++ ext)).length := by
      simp only [pySplit, List.length_map]
      exact pySplitAux_length_pos ',' _ []
    omega)]

/-- C4 (witness): the amended rule applied to the concrete line
`HEADER,CLIENT_LISTX,a,b` (extension `X,a,b` of section label
`CLIENT_LIST`). -/
theorem c4_header_match_is_prefix_match_witness :
    expect_header "CLIENT_LIST" (initState ["HEADER,CLIENT_LIST" ++ "X,a,b"]) =
      Except.ok ((pySplit ',' ("HEADER," ++ "CLIENT_LIST" ++ "X,a,b")).drop 1,
        { lines := [], lastLine := some "HEADER,CLIENT_LISTX,a,b",
          rollback := false }) := by
  exact c4_header_match_is_prefix_match "CLIENT_LIST" "X,a,b"
    (initState ["HEADER,CLIENT_LIST" ++ "X,a,b"])
    { lines := [], lastLine := some "HEADER,CLIENT_LISTX,a,b", rollback := false }
    (by rfl) (by decide)

theorem next_line_stop_state {st st1 : ParserState}
    (h : next_line st = (NextR.stop, st1)) :
    st1 = { st with lines := [] } ∧ st.rollback = false := by
  unfold next_line at h
  split at h
  · rename_i hrb
    cases hll : st.lastLine with
    | some s => rw [hll] at h; cases h
    | none => rw [hll] at h; cases h
  · rename_i hrb
    cases hscan : scanLines st.lines with
    | some p => rw [hscan] at h; cases h
    | none =>
      rw [hscan] at h
      cases h
      exact ⟨rfl, by simpa using hrb⟩

/-- C10: if an advance has just signalled exhaustion and `rollback` is then
invoked, the next advance re-returns the most recently returned line `l`
instead of signalling exhaustion again; consequently a header scan started
after such a rollback examines `l` as a candidate header line first, and
only then (exhaustion having consumed all lines) reports end of input when
`l` does not match. -/
theorem c10_rollback_after_exhaustion (st st1 : ParserState) (l : String)
    (header : String)
    (hstop : next_line st = (NextR.stop, st1)) (hlast : st.lastLine = some l) :
    next_line (doRollback st1) = (NextR.line l, { st1 with rollback := false }) ∧
    (pyStartsWith l ("HEADER," ++ header) = false →
      expect_header header (doRollback st1) =
        Except.error
          (PErr.parsing ["expected " ++ pyRepr header ++ " but got end of input"])) := by
  obtain ⟨hst1, hrb⟩ := next_line_stop_state hstop
  subst hst1
  have hlast1 : ({ st with lines := [] } : ParserState).lastLine = some l := hlast
  have hrb1 : ({ st with lines := [] } : ParserState).rollback = false := hrb
  have hre := rollback_of_state hlast1 hrb1
  have hre2 : next_line (doRollback { st with lines := [] }) =
      (NextR.line l, { st with lines := [], rollback := false }) := by
    rw [hre]
    rcases st with ⟨lines, lastLine, rollback⟩
    have hrbv : rollback = false := hrb
    subst hrbv
    rfl
  refine ⟨hre2, ?_⟩
  intro hnomatch
  rw [expect_header_step, hre2]
  dsimp only
  rw [if_neg (by simp [hnomatch])]
  rw [expect_header_step]
  have hstop2 : next_line ({ st with lines := [], rollback := false } : ParserState) =
      (NextR.stop, { st with lines := [], rollback := false }) := by
    unfold next_line
    simp [scanLines]
  rw [hstop2]

/-- C10 (witness): the rollback-after-exhaustion behaviour at a concrete
state: the cursor has returned `CLIENT_LIST,bob` and then signalled
exhaustion; after a rollback the line is re-returned, and a
`ROUTING_TABLE` header scan ends with the end-of-input error after
re-examining it. -/
theorem c10_rollback_after_exhaustion_witness :
    next_line (doRollback { lines := [], lastLine := some "CLIENT_LIST,bob", rollback := false }) =
      (NextR.line "CLIENT_LIST,bob",
        { lines := [], lastLine := some "CLIENT_LIST,bob", rollback := false }) ∧
    (pyStartsWith "CLIENT_LIST,bob" ("HEADER," ++ "ROUTING_TABLE") = false →
      expect_header "ROUTING_TABLE"
          (doRollback { lines := [], lastLine := some "CLIENT_LIST,bob", rollback := false }) =
        Except.error
          (PErr.parsing ["expected " ++ pyRepr "ROUTING_TABLE" ++ " but got end of input"])) := by
  exact c10_rollback_after_exhaustion
    { lines := [], lastLine := some "CLIENT_LIST,bob", rollback := false }
    { lines := [], lastLine := some "CLIENT_LIST,bob", rollback := false }
    "CLIENT_LIST,bob" "ROUTING_TABLE" (by rfl) (by rfl)

theorem expect_headerF_parsing_singleton {header : String} :
    ∀ fuel : Nat, ∀ st : ParserState, ∀ args : List String,
    expect_headerF header fuel st = Except.error (PErr.parsing args) →
    args.length = 1 := by
  intro fuel
  induction fuel with
  | zero => intro st args h; cases h
  | succ f ih =>
    intro st args h
    simp only [expect_headerF] at h
    cases hnl : next_line st with
    | mk r st1 =>
      rw [hnl] at h
      cases r with
      | line l =>
        simp only at h
        split at h
        · split at h
          · cases h; rfl
          · cases h
        · exact ih st1 args h
      | stop => cases h; rfl
      | nullCrash => cases h

theorem parse_fieldsF_no_parsing {ρ : Type}
    {setF : ρ → String → String → Except String ρ} {init : ρ}
    {labels : List String} :
    ∀ fuel : Nat, ∀ st : ParserState, ∀ args : List String,
    parse_fieldsF setF init labels fuel st ≠ Except.error (PErr.parsing args) := by
  intro fuel
  induction fuel with
  | zero => intro st args h; cases h
  | succ f ih =>
    intro st args h
    simp only [parse_fieldsF] at h
    cases hel : expect_list st with
    | mk r st1 =>
      rw [hel] at h
      cases r with
      | ok values =>
        simp only at h
        split at h
        · cases h
        · split at h
          · cases h
          · rename_i r hmk
            cases hpf : parse_fieldsF setF init labels f st1 with
            | error e =>
              rw [hpf] at h
              dsimp only at h
              injection h with h2
              rw [h2] at hpf
              exact ih st1 args hpf
            | ok p =>
              rcases p with ⟨rs, stf⟩
              rw [hpf] at h
              dsimp only at h
              cases h
      | perr args2 => cases h
      | crash => cases h

theorem parse_impl_parsing_singleton {conv : Converters} {st : ParserState}
    {args : List String}
    (h : parse_impl conv st = Except.error (PErr.parsing args)) :
    args.length = 1 := by
  unfold parse_impl at h
  cases hcs : clients_stage conv st with
  | error e =>
    rw [hcs] at h
    dsimp only at h
    injection h with h2
    rw [h2] at hcs
    unfold clients_stage at hcs
    cases heh : expect_header client_list_label st with
    | error e2 =>
      rw [heh] at hcs
      dsimp only at hcs
      injection hcs with h3
      rw [h3] at heh
      exact expect_headerF_parsing_singleton _ _ _ heh
    | ok p =>
      rcases p with ⟨labels, st1⟩
      rw [heh] at hcs
      dsimp only at hcs
      cases hpf : parse_fields (setClientField conv) {} labels st1 with
      | error e3 =>
        rw [hpf] at hcs
        dsimp only at hcs
        injection hcs with h3
        rw [h3] at hpf
        exact absurd hpf (parse_fieldsF_no_parsing _ _ _)
      | ok q =>
        rcases q with ⟨cs, st2⟩
        rw [hpf] at hcs
        dsimp only at hcs
        cases hcs
  | ok p =>
    rcases p with ⟨cps, st2⟩
    rw [hcs] at h
    dsimp only at h
    cases hrs : routes_stage conv st2 with
    | error e =>
      rw [hrs] at h
      dsimp only at h
      injection h with h2
      rw [h2] at hrs
      unfold routes_stage at hrs
      cases heh : expect_header routing_table_label st2 with
      | error e2 =>
        rw [heh] at hrs
        dsimp only at hrs
        injection hrs with h3
        rw [h3] at heh
        exact expect_headerF_parsing_singleton _ _ _ heh
      | ok q =>
        rcases q with ⟨labels, st3⟩
        rw [heh] at hrs
        dsimp only at hrs
        cases hpf : parse_fields (setRoutingField conv) {} labels st3 with
        | error e3 =>
          rw [hpf] at hrs
          dsimp only at hrs
          injection hrs with h3
          rw [h3] at hpf
          exact absurd hpf (parse_fieldsF_no_parsing _ _ _)
        | ok q2 =>
          rcases q2 with ⟨rs, st4⟩
          rw [hpf] at hrs
          dsimp only at hrs
          cases hrs
    | ok q =>
      rcases q with ⟨rps, st3⟩
      rw [hrs] at h
      dsimp only at h
      cases h

/-- C6 (counterexample): at the very scenario the claim describes — a
row-shape failure with the input ending exactly at the section boundary
(the client section's labels demand 3 fields, the last line `CLIENT_LIST,alice`
has 2, and nothing follows) — parse raises a `ParsingError` carrying a
single message (the later header scan's end-of-input message), not the
concatenation of the row-shape message and a rollback message: `rollback`
merely sets a flag and can never fail, so the combined-message branch is
dead code. -/
theorem c6_single_message_at_boundary :
    parseLines specConverters
        ["HEADER,CLIENT_LIST,Common Name,Real Address", "CLIENT_LIST,alice"] =
      ParseResult.err
        ["expected " ++ pyRepr "ROUTING_TABLE" ++ " but got end of input"] := by
  rfl

/-- C6 (amended): every `ParsingError` that escapes `parse` carries exactly
one message: `rollback` cannot fail, so the combined two-message error of
`_parse_fields` is unreachable; after a row-shape failure — even at end of
input — the section ends normally and any subsequent error carries only its
own single message. -/
theorem c6_parse_errors_single_message (conv : Converters) (lines : List String)
    (args : List String) (h : parseLines conv lines = ParseResult.err args) :
    args.length = 1 := by
  unfold parseLines parse_log at h
  cases hpi : parse_impl conv (initState lines) with
  | ok s => rw [hpi] at h; cases h
  | error e =>
    rw [hpi] at h
    cases e with
    | parsing a =>
      dsimp only at h
      injection h with h2
      rw [h2] at hpi
      exact parse_impl_parsing_singleton hpi
    | assignment m =>
      dsimp only at h
      injection h with h2
      rw [← h2]
      rfl
    | crash => cases h

/-- C6 (witness): the single-message property at the concrete
boundary-failure input of the counterexample. -/
theorem c6_parse_errors_single_message_witness :
    (["expected " ++ pyRepr "ROUTING_TABLE" ++ " but got end of input"] : List String).length
      = 1 := by
  exact c6_parse_errors_single_message specConverters
    ["HEADER,CLIENT_LIST,Common Name,Real Address", "CLIENT_LIST,alice"]
    ["expected " ++ pyRepr "ROUTING_TABLE" ++ " but got end of input"] (by rfl)

theorem hexDigit_ascii (n : Nat) (h : n < 16) : (hexDigit n).toNat < 128 := by
  interval_cases n <;> decide

theorem hex2_ascii (n : Nat) : ∀ c ∈ (hex2 n).data, c.toNat < 128 := by
  intro c hc
  have hd : (hex2 n).data = [hexDigit (n / 16 % 16), hexDigit (n % 16)] := rfl
  rw [hd] at hc
  simp only [List.mem_cons, List.not_mem_nil, or_false] at hc
  rcases hc with hc | hc <;> subst hc
  · exact hexDigit_ascii _ (Nat.mod_lt _ (by norm_num))
  · exact hexDigit_ascii _ (Nat.mod_lt _ (by norm_num))

theorem hex4_ascii (n : Nat) : ∀ c ∈ (hex4 n).data, c.toNat < 128 := by
  intro c hc
  unfold hex4 at hc
  rw [String.data_append] at hc
  rcases List.mem_append.mp hc with hc | hc
  · exact hex2_ascii _ _ hc
  · exact hex2_ascii _ _ hc

theorem hex8_ascii (n : Nat) : ∀ c ∈ (hex8 n).data, c.toNat < 128 := by
  intro c hc
  unfold hex8 at hc
  rw [String.data_append] at hc
  rcases List.mem_append.mp hc with hc | hc
  · exact hex4_ascii _ _ hc
  · exact hex4_ascii _ _ hc

theorem backslashReplaceChar_ascii (c : Char) :
    ∀ c2 ∈ (backslashReplaceChar c).data, c2.toNat < 128 := by
  intro c2 hc2
  unfold backslashReplaceChar at hc2
  split at hc2
  · rename_i hlt
    have he : c2 = c := by
      simp only [String.singleton] at hc2
      simpa using hc2
    subst he
    exact hlt
  · split at hc2
    · rw [String.data_append] at hc2
      rcases List.mem_append.mp hc2 with hc2 | hc2
      · exact (by decide : ∀ x ∈ "\\x".data, x.toNat < 128) c2 hc2
      · exact hex2_ascii _ _ hc2
    · split at hc2
      · rw [String.data_append] at hc2
        rcases List.mem_append.mp hc2 with hc2 | hc2
        · exact (by decide : ∀ x ∈ "\\u".data, x.toNat < 128) c2 hc2
        · exact hex4_ascii _ _ hc2
      · rw [String.data_append] at hc2
        rcases List.mem_append.mp hc2 with hc2 | hc2
        · exact (by decide : ∀ x ∈ "\\U".data, x.toNat < 128) c2 hc2
        · exact hex8_ascii _ _ hc2

theorem string_join_mem {c : Char} :
    ∀ parts : List String, ∀ acc : String,
    c ∈ (List.foldl (· ++ ·) acc parts).data →
    c ∈ acc.data ∨ ∃ p ∈ parts, c ∈ p.data := by
  intro parts
  induction parts with
  | nil => intro acc h; exact Or.inl h
  | cons p ps ih =>
    intro acc h
    rcases ih (acc ++ p) h with h2 | h2
    · rw [String.data_append] at h2
      rcases List.mem_append.mp h2 with h3 | h3
      · exact Or.inl h3
      · exact Or.inr ⟨p, List.mem_cons_self _ _, h3⟩
    · rcases h2 with ⟨q, hq, hcq⟩
      exact Or.inr ⟨q, List.mem_cons_of_mem _ hq, hcq⟩

theorem sanitizeMsg_ascii (s : String) :
    ∀ c ∈ (sanitizeMsg s).data, c.toNat < 128 := by
  intro c hc
  unfold sanitizeMsg String.join at hc
  rcases string_join_mem _ _ hc with h | h
  · cases h
  · rcases h with ⟨p, hp, hcp⟩
    rcases List.mem_map.mp hp with ⟨c2, _, hc2⟩
    subst hc2
    exact backslashReplaceChar_ascii _ _ hcp

/-- C7 (counterexample): with a byte-count converter that satisfies its
section-6 contract (it rejects the non-numeric field `abc`) but whose error
message contains a newline, parse raises a `ParsingError` whose message
still contains that control character: the sanitizer
(`encode('ascii', 'backslashreplace')`) escapes non-ASCII characters only
and passes ASCII control characters through unescaped. -/
theorem c7_control_char_not_escaped :
    parseLines ctrlConverters scenarioC_input =
      ParseResult.err ["expected valid format: bad size\nabc"] ∧
    (("expected valid format: bad size\nabc" : String).data.any
      (fun c => c.toNat < 32)) = true := by
  exact ⟨by rfl, by decide⟩

/-- C7 (amended): whenever a field converter rejects a field's textual
value, parse raises a `ParsingError` whose single message is
`expected valid format: ` followed by the converter's message with every
non-ASCII character backslash-escaped; the resulting message consists of
ASCII characters only (and is in that sense always displayable), but ASCII
control characters in the converter's message are not escaped. -/
theorem c7_converter_error_sanitized (conv : Converters) (lines : List String)
    (m : String)
    (h : parse_impl conv (initState lines) = Except.error (PErr.assignment m)) :
    parseLines conv lines =
      ParseResult.err ["expected valid format: " ++ sanitizeMsg m] ∧
    ∀ c ∈ ("expected valid format: " ++ sanitizeMsg m).data, c.toNat < 128 := by
  constructor
  · unfold parseLines parse_log
    rw [h]
  · intro c hc
    rw [String.data_append] at hc
    rcases List.mem_append.mp hc with hc | hc
    · exact (by decide : ∀ x ∈ ("expected valid format: " : String).data,
        x.toNat < 128) c hc
    · exact sanitizeMsg_ascii _ _ hc

/-- C7 (witness): the amended statement at scenario C (byte-count field
`abc` with the spec-modelled converters). -/
theorem c7_converter_error_sanitized_witness :
    parseLines specConverters scenarioC_input =
      ParseResult.err
        ["expected valid format: " ++ sanitizeMsg "invalid byte count: abc"] ∧
    ∀ c ∈ ("expected valid format: " ++ sanitizeMsg "invalid byte count: abc").data,
      c.toNat < 128 := by
  exact c7_converter_error_sanitized specConverters scenarioC_input
    "invalid byte count: abc" (by rfl)

theorem setClientField_fold (conv : Converters) :
    ∀ (pairs : List (String × String)) (c0 c : Client),
    mkRecordAux (setClientField conv) c0 pairs = Except.ok c →
    ((c.client_id.isSome = true ↔
        (c0.client_id.isSome = true ∨ "Client ID" ∈ pairs.map Prod.fst)) ∧
     (c.common_name.isSome = true ↔
        (c0.common_name.isSome = true ∨ "Common Name" ∈ pairs.map Prod.fst)) ∧
     (c.real_address.isSome = true ↔
        (c0.real_address.isSome = true ∨ "Real Address" ∈ pairs.map Prod.fst)) ∧
     (c.bytes_received.isSome = true ↔
        (c0.bytes_received.isSome = true ∨ "Bytes Received" ∈ pairs.map Prod.fst)) ∧
     (c.bytes_sent.isSome = true ↔
        (c0.bytes_sent.isSome = true ∨ "Bytes Sent" ∈ pairs.map Prod.fst)) ∧
     (c.connected_since.isSome = true ↔
        (c0.connected_since.isSome = true ∨ "Connected Since" ∈ pairs.map Prod.fst))) := by
  intro pairs
  induction pairs with
  | nil =>
    intro c0 c h
    injection h with h2
    subst h2
    simp
  | cons p rest ih =>
    rcases p with ⟨lab, v⟩
    intro c0 c h
    simp only [mkRecordAux] at h
    cases hstep : setClientField conv c0 lab v with
    | error m => rw [hstep] at h; cases h
    | ok c1 =>
      rw [hstep] at h
      dsimp only at h
      obtain ⟨i1, i2, i3, i4, i5, i6⟩ := ih c1 c h
      unfold setClientField at hstep
      by_cases h1 : lab = "Client ID"
      · rw [if_pos h1] at hstep
        injection hstep with hc1
        subst h1
        subst hc1
        exact ⟨by rw [i1]; simp, by rw [i2]; simp, by rw [i3]; simp,
               by rw [i4]; simp, by rw [i5]; simp, by rw [i6]; simp⟩
      · rw [if_neg h1] at hstep
        by_cases h2 : lab = "Common Name"
        · rw [if_pos h2] at hstep
          injection hstep with hc1
          subst h2
          subst hc1
          exact ⟨by rw [i1]; simp, by rw [i2]; simp, by rw [i3]; simp,
                 by rw [i4]; simp, by rw [i5]; simp, by rw [i6]; simp⟩
        · rw [if_neg h2] at hstep
          by_cases h3 : lab = "Real Address"
          · rw [if_pos h3] at hstep
            cases hcv : conv.peer v with
            | error m => rw [hcv] at hstep; cases hstep
            | ok pv =>
              rw [hcv] at hstep
              simp only [Except.map] at hstep
              injection hstep with hc1
              subst h3
              subst hc1
              exact ⟨by rw [i1]; simp, by rw [i2]; simp, by rw [i3]; simp,
                     by rw [i4]; simp, by rw [i5]; simp, by rw [i6]; simp⟩
          · rw [if_neg h3] at hstep
            by_cases h4 : lab = "Bytes Received"
            · rw [if_pos h4] at hstep
              cases hcv : conv.filesize v with
              | error m => rw [hcv] at hstep; cases hstep
              | ok nv =>
                rw [hcv] at hstep
                simp only [Except.map] at hstep
                injection hstep with hc1
                subst h4
                subst hc1
                exact ⟨by rw [i1]; simp, by rw [i2]; simp, by rw [i3]; simp,
                       by rw [i4]; simp, by rw [i5]; simp, by rw [i6]; simp⟩
            · rw [if_neg h4] at hstep
              by_cases h5 : lab = "Bytes Sent"
              · rw [if_pos h5] at hstep
                cases hcv : conv.filesize v with
                | error m => rw [hcv] at hstep; cases hstep
                | ok nv =>
                  rw [hcv] at hstep
                  simp only [Except.map] at hstep
                  injection hstep with hc1
                  subst h5
                  subst hc1
                  exact ⟨by rw [i1]; simp, by rw [i2]; simp, by rw [i3]; simp,
                         by rw [i4]; simp, by rw [i5]; simp, by rw [i6]; simp⟩
              · rw [if_neg h5] at hstep
                by_cases h6 : lab = "Connected Since"
                · rw [if_pos h6] at hstep
                  cases hcv : conv.time v with
                  | error m => rw [hcv] at hstep; cases hstep
                  | ok tv =>
                    rw [hcv] at hstep
                    simp only [Except.map] at hstep
                    injection hstep with hc1
                    subst h6
                    subst hc1
                    exact ⟨by rw [i1]; simp, by rw [i2]; simp, by rw [i3]; simp,
                           by rw [i4]; simp, by rw [i5]; simp, by rw [i6]; simp⟩
                · rw [if_neg h6] at hstep
                  injection hstep with hc1
                  subst hc1
                  exact ⟨by rw [i1]; simp [List.map_cons, List.mem_cons, Ne.symm h1],
                         by rw [i2]; simp [List.map_cons, List.mem_cons, Ne.symm h2],
                         by rw [i3]; simp [List.map_cons, List.mem_cons, Ne.symm h3],
                         by rw [i4]; simp [List.map_cons, List.mem_cons, Ne.symm h4],
                         by rw [i5]; simp [List.map_cons, List.mem_cons, Ne.symm h5],
                         by rw [i6]; simp [List.map_cons, List.mem_cons, Ne.symm h6]⟩

/-- C9: for a data row successfully decoded against a header's label list
(field count equal to label count), each `Client` attribute is populated
(via its converter, or the raw string for converter-less attributes)
exactly when its schema label occurs in the label list: header labels
outside the schema are ignored without error, and schema attributes whose
label is absent stay at their default (`none`). -/
theorem c9_schema_label_population (conv : Converters) (labels values : List String)
    (c : Client) (hlen : values.length = labels.length)
    (hok : mkRecord (setClientField conv) {} labels values = Except.ok c) :
    ((c.client_id.isSome = true ↔ "Client ID" ∈ labels) ∧
     (c.common_name.isSome = true ↔ "Common Name" ∈ labels) ∧
     (c.real_address.isSome = true ↔ "Real Address" ∈ labels) ∧
     (c.bytes_received.isSome = true ↔ "Bytes Received" ∈ labels) ∧
     (c.bytes_sent.isSome = true ↔ "Bytes Sent" ∈ labels) ∧
     (c.connected_since.isSome = true ↔ "Connected Since" ∈ labels)) := by
  have hfst : (labels.zip values).map Prod.fst = labels :=
    List.map_fst_zip _ _ (by omega)
  obtain ⟨i1, i2, i3, i4, i5, i6⟩ :=
    setClientField_fold conv (labels.zip values) {} c hok
  rw [hfst] at i1 i2 i3 i4 i5 i6
  exact ⟨by simpa using i1, by simpa using i2, by simpa using i3,
         by simpa using i4, by simpa using i5, by simpa using i6⟩

/-- C9 (witness): the population rule at a concrete row — header labels
`[CLIENT_LIST, Common Name, Bytes Received]` with values
`[CLIENT_LIST, alice, 42]` populate exactly the common name and the byte
count; `CLIENT_LIST` is ignored (not a schema label) and the remaining
schema attributes stay at their defaults. -/
theorem c9_schema_label_population_witness :
    ((({ common_name := some "alice", bytes_received := some 42 } : Client).client_id.isSome
        = true ↔ "Client ID" ∈ ["CLIENT_LIST", "Common Name", "Bytes Received"]) ∧
     (({ common_name := some "alice", bytes_received := some 42 } : Client).common_name.isSome
        = true ↔ "Common Name" ∈ ["CLIENT_LIST", "Common Name", "Bytes Received"]) ∧
     (({ common_name := some "alice", bytes_received := some 42 } : Client).real_address.isSome
        = true ↔ "Real Address" ∈ ["CLIENT_LIST", "Common Name", "Bytes Received"]) ∧
     (({ common_name := some "alice", bytes_received := some 42 } : Client).bytes_received.isSome
        = true ↔ "Bytes Received" ∈ ["CLIENT_LIST", "Common Name", "Bytes Received"]) ∧
     (({ common_name := some "alice", bytes_received := some 42 } : Client).bytes_sent.isSome
        = true ↔ "Bytes Sent" ∈ ["CLIENT_LIST", "Common Name", "Bytes Received"]) ∧
     (({ common_name := some "alice", bytes_received := some 42 } : Client).connected_since.isSome
        = true ↔ "Connected Since" ∈ ["CLIENT_LIST", "Common Name", "Bytes Received"])) := by
  exact c9_schema_label_population specConverters
    ["CLIENT_LIST", "Common Name", "Bytes Received"]
    ["CLIENT_LIST", "alice", "42"]
    { common_name := some "alice", bytes_received := some 42 }
    (by rfl) (by rfl)

theorem odGet_overwrite {α : Type} (d : List (String × α)) (k : String) (v : α)
    (cn : String) :
    odGet (d.map (fun p => if p.1 = k then (p.1, v) else p)) cn =
      if k = cn then (odGet d cn).map (fun _ => v) else odGet d cn := by
  induction d with
  | nil => simp [odGet]
  | cons p rest ih =>
    simp only [List.map_cons, odGet]
    by_cases hpk : p.1 = k
    · rw [if_pos hpk]
      by_cases hkc : k = cn
      · rw [if_pos (hpk.trans hkc), if_pos hkc, if_pos (hpk.trans hkc)]
        simp
      · rw [if_neg (fun hc => hkc (hpk.symm.trans hc)), if_neg hkc,
          if_neg (fun hc => hkc (hpk.symm.trans hc))]
        exact ih.trans (by rw [if_neg hkc])
    · rw [if_neg hpk]
      by_cases hpc : p.1 = cn
      · have hkc : ¬ k = cn := fun hc => hpk (hpc.trans hc.symm)
        rw [if_pos hpc, if_pos hpc, if_neg hkc]
      · rw [if_neg hpc, if_neg hpc]
        exact ih

theorem odGet_any {α : Type} (d : List (String × α)) (k : String) :
    d.any (fun p => p.1 = k) = (odGet d k).isSome := by
  induction d with
  | nil => simp [odGet]
  | cons p rest ih =>
    simp only [List.any_cons, odGet]
    by_cases hpk : p.1 = k
    · rw [if_pos hpk]
      simp [hpk]
    · rw [if_neg hpk]
      simp [hpk, ih]

theorem odGet_append_single {α : Type} (d : List (String × α)) (kv : String × α)
    (cn : String) :
    odGet (d ++ [kv]) cn =
      match odGet d cn with
      | some v => some v
      | none => if kv.1 = cn then some kv.2 else none := by
  induction d with
  | nil => simp [odGet]
  | cons p rest ih =>
    simp only [List.cons_append, odGet]
    by_cases hpc : p.1 = cn
    · rw [if_pos hpc, if_pos hpc]
    · rw [if_neg hpc, if_neg hpc]
      exact ih

theorem odGet_odInsert {α : Type} (d : List (String × α)) (kv : String × α)
    (cn : String) :
    odGet (odInsert d kv) cn =
      if kv.1 = cn then some kv.2 else odGet d cn := by
  unfold odInsert
  by_cases hany : d.any (fun p => p.1 = kv.1)
  · rw [if_pos hany, odGet_overwrite]
    by_cases hkc : kv.1 = cn
    · rw [if_pos hkc, if_pos hkc]
      rw [odGet_any, hkc] at hany
      cases hv : odGet d cn with
      | some v => simp
      | none => rw [hv] at hany; simp at hany
    · rw [if_neg hkc, if_neg hkc]
  · rw [if_neg hany, odGet_append_single]
    by_cases hkc : kv.1 = cn
    · have hnone : odGet d cn = none := by
        rw [odGet_any, hkc] at hany
        cases hv : odGet d cn with
        | some v => rw [hv] at hany; simp at hany
        | none => rfl
      rw [hnone]
    · cases hv : odGet d cn with
      | some v =>
        dsimp only
        rw [if_neg hkc]
      | none =>
        dsimp only

theorem odGet_foldl {α : Type} :
    ∀ (ps : List (String × α)) (acc : List (String × α)) (cn : String),
    odGet (ps.foldl odInsert acc) cn =
      match lastVal ps cn with
      | some v => some v
      | none => odGet acc cn := by
  intro ps
  induction ps with
  | nil => intro acc cn; simp [lastVal]
  | cons p rest ih =>
    intro acc cn
    simp only [List.foldl_cons, lastVal]
    rw [ih]
    cases hlv : lastVal rest cn with
    | some v => rfl
    | none =>
      dsimp only
      rw [odGet_odInsert]
      by_cases hpc : p.1 = cn
      · rw [if_pos hpc, if_pos hpc]
      · rw [if_neg hpc, if_neg hpc]

theorem countP_overwrite {α : Type} (d : List (String × α)) (k : String) (v : α)
    (cn : String) :
    (d.map (fun p => if p.1 = k then (p.1, v) else p)).countP (fun p => p.1 == cn) =
      d.countP (fun p => p.1 == cn) := by
  induction d with
  | nil => rfl
  | cons p rest ih =>
    simp only [List.map_cons, List.countP_cons]
    rw [ih]
    by_cases hpk : p.1 = k
    · rw [if_pos hpk]
    · rw [if_neg hpk]

theorem countP_zero_of_any_false {α : Type} (d : List (String × α)) (k : String)
    (h : d.any (fun p => p.1 = k) = false) :
    d.countP (fun p => p.1 == k) = 0 := by
  rw [List.countP_eq_zero]
  intro p hp
  simp only [List.any_eq_false] at h
  simpa using h p hp

theorem countP_odInsert_le_one {α : Type} (acc : List (String × α))
    (kv : String × α) (cn : String)
    (h : acc.countP (fun p => p.1 == cn) ≤ 1) :
    (odInsert acc kv).countP (fun p => p.1 == cn) ≤ 1 := by
  unfold odInsert
  by_cases hany : acc.any (fun p => p.1 = kv.1)
  · rw [if_pos hany, countP_overwrite]
    exact h
  · rw [if_neg hany]
    rw [List.countP_append]
    by_cases hkc : kv.1 = cn
    · have h0 : acc.countP (fun p => p.1 == cn) = 0 := by
        rw [← hkc]
        refine countP_zero_of_any_false acc kv.1 ?_
        cases hb : acc.any (fun p => p.1 = kv.1) with
        | true => exact absurd hb hany
        | false => rfl
      rw [h0]
      simp [List.countP_cons, hkc]
    · have h1 : ([kv] : List (String × α)).countP (fun p => p.1 == cn) = 0 := by
        simp [List.countP_cons, hkc]
      rw [h1]
      simpa using h

theorem countP_foldl_le_one {α : Type} :
    ∀ (ps acc : List (String × α)) (cn : String),
    acc.countP (fun p => p.1 == cn) ≤ 1 →
    (ps.foldl odInsert acc).countP (fun p => p.1 == cn) ≤ 1 := by
  intro ps
  induction ps with
  | nil => intro acc cn h; exact h
  | cons p rest ih =>
    intro acc cn h
    simp only [List.foldl_cons]
    exact ih _ cn (countP_odInsert_le_one acc p cn h)

theorem lastVal_none_of_countP_zero {α : Type} :
    ∀ (q : List (String × α)) (cn : String),
    q.countP (fun p => p.1 == cn) = 0 → lastVal q cn = none := by
  intro q
  induction q with
  | nil => intro cn h; rfl
  | cons p rest ih =>
    intro cn h
    rw [List.countP_cons] at h
    have hrest : rest.countP (fun p => p.1 == cn) = 0 :=
      Nat.eq_zero_of_add_eq_zero_right h
    have hp : ¬ p.1 = cn := by
      intro hc
      rw [hrest] at h
      simp [hc] at h
    simp only [lastVal, ih cn hrest]
    rw [if_neg hp]

theorem lastVal_eq_odGet_of_countP_le_one {α : Type} :
    ∀ (q : List (String × α)) (cn : String),
    q.countP (fun p => p.1 == cn) ≤ 1 → lastVal q cn = odGet q cn := by
  intro q
  induction q with
  | nil => intro cn h; rfl
  | cons p rest ih =>
    intro cn h
    rw [List.countP_cons] at h
    simp only [lastVal, odGet]
    by_cases hpc : p.1 = cn
    · have hone : (if p.1 == cn then 1 else 0) = 1 := by simp [hpc]
      rw [hone] at h
      have hrest : rest.countP (fun p => p.1 == cn) = 0 := by omega
      rw [lastVal_none_of_countP_zero rest cn hrest]
      rw [if_pos hpc, if_pos hpc]
    · rw [ih cn (le_trans (Nat.le_add_right _ _) h)]
      cases hv : odGet rest cn with
      | some v =>
        dsimp only
        rw [if_neg hpc]
      | none =>
        dsimp only

theorem odUpdate_dict_spec {α : Type} (ps : List (String × α)) (cn : String) :
    (odUpdate [] (dictOfPairs ps)).countP (fun p => p.1 == cn) ≤ 1 ∧
    odGet (odUpdate [] (dictOfPairs ps)) cn = lastVal ps cn := by
  have hod : odUpdate ([] : List (String × α)) (dictOfPairs ps) =
      (dictOfPairs ps).foldl odInsert [] := rfl
  have hdp : dictOfPairs ps = ps.foldl odInsert [] := rfl
  have hcount1 : (dictOfPairs ps).countP (fun p => p.1 == cn) ≤ 1 := by
    rw [hdp]
    exact countP_foldl_le_one ps [] cn (by simp)
  constructor
  · rw [hod]
    exact countP_foldl_le_one (dictOfPairs ps) [] cn (by simp)
  · rw [hod, odGet_foldl]
    rw [lastVal_eq_odGet_of_countP_le_one _ cn hcount1]
    rw [hdp, odGet_foldl]
    cases lastVal ps cn <;> rfl

/-- C8: for every successfully parsed input and every common name, the
Snapshot's clients mapping holds at most one entry under that name, and its
value is the last decoded client row keyed by that name (later rows
overwrite earlier ones); the same last-occurrence-wins rule holds for the
routes mapping. -/
theorem c8_last_occurrence_wins (conv : Converters) (lines : List String)
    (st : Status) (cn : String)
    (h : parseLines conv lines = ParseResult.ok st) :
    (st.client_list.countP (fun p => p.1 == cn) ≤ 1 ∧
     odGet st.client_list cn = lastVal (clientPairs conv lines) cn) ∧
    (st.routing_table.countP (fun p => p.1 == cn) ≤ 1 ∧
     odGet st.routing_table cn = lastVal (routePairs conv lines) cn) := by
  unfold parseLines parse_log at h
  cases hpi : parse_impl conv (initState lines) with
  | error e =>
    rw [hpi] at h
    cases e <;> cases h
  | ok s =>
    rw [hpi] at h
    dsimp only at h
    injection h with h2
    subst h2
    unfold parse_impl at hpi
    cases hcs : clients_stage conv (initState lines) with
    | error e => rw [hcs] at hpi; cases hpi
    | ok p =>
      rcases p with ⟨cps, st2⟩
      rw [hcs] at hpi
      dsimp only at hpi
      cases hrs : routes_stage conv st2 with
      | error e => rw [hrs] at hpi; cases hpi
      | ok q =>
        rcases q with ⟨rps, st3⟩
        rw [hrs] at hpi
        dsimp only at hpi
        injection hpi with h3
        subst h3
        have hcp : clientPairs conv lines = cps := by
          unfold clientPairs
          rw [hcs]
        have hrp : routePairs conv lines = rps := by
          unfold routePairs
          rw [hcs]
          dsimp only
          rw [hrs]
        rw [hcp, hrp]
        exact ⟨odUpdate_dict_spec cps cn, odUpdate_dict_spec rps cn⟩

/-- C8 (witness): scenario E — two client rows for `alice` (the second with
byte counts 300/400) — the clients mapping has at most one `alice` entry
and it holds the later row's record. -/
theorem c8_last_occurrence_wins_witness :
    ((odUpdate [] (dictOfPairs (clientPairs specConverters scenarioE_cid))).countP
        (fun p => p.1 == "alice") ≤ 1 ∧
      odGet (odUpdate [] (dictOfPairs (clientPairs specConverters scenarioE_cid))) "alice"
        = lastVal (clientPairs specConverters scenarioE_cid) "alice") ∧
    ((odUpdate [] (dictOfPairs (routePairs specConverters scenarioE_cid))).countP
        (fun p => p.1 == "alice") ≤ 1 ∧
      odGet (odUpdate [] (dictOfPairs (routePairs specConverters scenarioE_cid))) "alice"
        = lastVal (routePairs specConverters scenarioE_cid) "alice") := by
  exact c8_last_occurrence_wins specConverters scenarioE_cid
    { client_list := odUpdate [] (dictOfPairs (clientPairs specConverters scenarioE_cid)),
      routing_table := odUpdate [] (dictOfPairs (routePairs specConverters scenarioE_cid)) }
    "alice" (by rfl)

theorem scanLines_mem {ls : List String} {t : String} {rest : List String}
    (h : scanLines ls = some (t, rest)) :
    (∃ l0 ∈ ls, t = pyStrip l0) ∧ ∀ x ∈ rest, x ∈ ls := by
  induction ls with
  | nil => simp [scanLines] at h
  | cons l ls ih =>
    simp only [scanLines] at h
    split at h
    · obtain ⟨⟨l0, hl0, ht⟩, hrest⟩ := ih h
      exact ⟨⟨l0, List.mem_cons_of_mem _ hl0, ht⟩,
        fun x hx => List.mem_cons_of_mem _ (hrest x hx)⟩
    · cases h
      exact ⟨⟨l, List.mem_cons_self _ _, rfl⟩,
        fun x hx => List.mem_cons_of_mem _ hx⟩

theorem next_line_line_src {st : ParserState} {l : String} {st1 : ParserState}
    (h : next_line st = (NextR.line l, st1)) :
    (st.lastLine = some l ∧ st1 = { st with rollback := false }) ∨
    (∃ rest : List String, scanLines st.lines = some (l, rest) ∧
      st1 = { lines := rest, lastLine := some l, rollback := false }) := by
  unfold next_line at h
  split at h
  · cases hll : st.lastLine with
    | some s =>
      rw [hll] at h
      cases h
      exact Or.inl ⟨rfl, rfl⟩
    | none => rw [hll] at h; cases h
  · cases hscan : scanLines st.lines with
    | some p =>
      rcases p with ⟨t, rest⟩
      rw [hscan] at h
      cases h
      exact Or.inr ⟨rest, rfl, rfl⟩
    | none => rw [hscan] at h; cases h

theorem next_line_crash_src {st : ParserState} {st1 : ParserState}
    (h : next_line st = (NextR.nullCrash, st1)) :
    st1 = { st with rollback := false } := by
  unfold next_line at h
  split at h
  · cases hll : st.lastLine with
    | some s => rw [hll] at h; cases h
    | none => rw [hll] at h; cases h; rfl
  · cases hscan : scanLines st.lines with
    | some p => rw [hscan] at h; cases h
    | none => rw [hscan] at h; cases h

theorem next_line_inv {orig : List String} {st : ParserState} {l : String}
    {st1 : ParserState} (hinv : CursorInv orig st)
    (h : next_line st = (NextR.line l, st1)) :
    (∃ l0 ∈ orig, l = pyStrip l0) ∧ CursorInv orig st1 := by
  rcases next_line_line_src h with ⟨hll, hst1⟩ | ⟨rest, hscan, hst1⟩
  · subst hst1
    exact ⟨hinv.1 l hll, fun l2 hl2 => hinv.1 l2 hl2, fun x hx => hinv.2 x hx⟩
  · subst hst1
    obtain ⟨⟨l0, hl0, ht⟩, hrest⟩ := scanLines_mem hscan
    refine ⟨⟨l0, hinv.2 l0 hl0, ht⟩, fun l2 hl2 => ?_,
      fun x hx => hinv.2 x (hrest x hx)⟩
    have hv : some l = some l2 := hl2
    have he : l = l2 := by injection hv
    exact ⟨l0, hinv.2 l0 hl0, he ▸ ht⟩

theorem next_line_any_inv {orig : List String} {st : ParserState}
    (hinv : CursorInv orig st) :
    ∀ r : NextR, ∀ st1 : ParserState, next_line st = (r, st1) → CursorInv orig st1 := by
  intro r st1 h
  cases r with
  | line l => exact (next_line_inv hinv h).2
  | stop =>
    obtain ⟨hst1, _⟩ := next_line_stop_state h
    subst hst1
    exact ⟨fun l2 hl2 => hinv.1 l2 hl2, fun x hx => by cases hx⟩
  | nullCrash =>
    have hst1 := next_line_crash_src h
    subst hst1
    exact ⟨fun l2 hl2 => hinv.1 l2 hl2, fun x hx => hinv.2 x hx⟩

theorem expect_list_inv {orig : List String} {st : ParserState}
    (hinv : CursorInv orig st) :
    ∀ r : ListRes, ∀ st1 : ParserState, expect_list st = (r, st1) →
    CursorInv orig st1 := by
  intro r st1 h
  unfold expect_list at h
  cases hnl : next_line st with
  | mk r2 st2 =>
    rw [hnl] at h
    cases r2 with
    | line l =>
      dsimp only at h
      split at h <;> (cases h; exact next_line_any_inv hinv _ _ hnl)
    | stop => cases h; exact next_line_any_inv hinv _ _ hnl
    | nullCrash => cases h; exact next_line_any_inv hinv _ _ hnl

theorem doRollback_inv {orig : List String} {st : ParserState}
    (hinv : CursorInv orig st) : CursorInv orig (doRollback st) :=
  ⟨fun l2 hl2 => hinv.1 l2 hl2, fun x hx => hinv.2 x hx⟩

theorem expect_headerF_ok_inv {orig : List String} (header : String) :
    ∀ fuel : Nat, ∀ st : ParserState, ∀ labels : List String, ∀ st1 : ParserState,
    CursorInv orig st →
    expect_headerF header fuel st = Except.ok (labels, st1) →
    CursorInv orig st1 ∧
    ∃ l0 ∈ orig, pyStartsWith (pyStrip l0) ("HEADER," ++ header) = true := by
  intro fuel
  induction fuel with
  | zero => intro st labels st1 hinv h; cases h
  | succ f ih =>
    intro st labels st1 hinv h
    simp only [expect_headerF] at h
    cases hnl : next_line st with
    | mk r st2 =>
      rw [hnl] at h
      cases r with
      | line l =>
        dsimp only at h
        split at h
        · rename_i hmatch
          split at h
          · cases h
          · obtain ⟨⟨l0, hl0, ht⟩, hinv2⟩ := next_line_inv hinv hnl
            injection h with h2
            injection h2 with h3 h4
            subst h4
            exact ⟨hinv2, l0, hl0, by rw [← ht]; exact hmatch⟩
        · exact ih st2 labels st1 (next_line_inv hinv hnl).2 h
      | stop => cases h
      | nullCrash => cases h

theorem parse_fieldsF_ok_inv {ρ : Type} {orig : List String}
    (setF : ρ → String → String → Except String ρ) (init : ρ)
    (labels : List String) :
    ∀ fuel : Nat, ∀ st : ParserState, ∀ rs : List ρ, ∀ st1 : ParserState,
    CursorInv orig st →
    parse_fieldsF setF init labels fuel st = Except.ok (rs, st1) →
    CursorInv orig st1 := by
  intro fuel
  induction fuel with
  | zero => intro st rs st1 hinv h; cases h
  | succ f ih =>
    intro st rs st1 hinv h
    simp only [parse_fieldsF] at h
    cases hel : expect_list st with
    | mk r st2 =>
      rw [hel] at h
      cases r with
      | ok values =>
        dsimp only at h
        split at h
        · injection h with h2
          injection h2 with h3 h4
          subst h4
          exact doRollback_inv (expect_list_inv hinv _ _ hel)
        · split at h
          · cases h
          · cases hrec : parse_fieldsF setF init labels f st2 with
            | error e => rw [hrec] at h; cases h
            | ok q =>
              rcases q with ⟨rs2, stf⟩
              rw [hrec] at h
              dsimp only at h
              injection h with h2
              injection h2 with h3 h4
              subst h4
              exact ih st2 rs2 stf (expect_list_inv hinv _ _ hel) hrec
      | perr args =>
        injection h with h2
        injection h2 with h3 h4
        subst h4
        exact doRollback_inv (expect_list_inv hinv _ _ hel)
      | crash => cases h

/-- C5: a Snapshot is returned only when both sections were completely
parsed: every successful parse found a (stripped) input line matching the
`CLIENT_LIST` header and, after the client section, one matching the
`ROUTING_TABLE` header; when the input ends before either header is found
— the engine still scanning for a header mid-parse — parse raises
`ParsingError` instead of returning a partially populated Snapshot. -/
theorem c5_success_requires_both_headers (conv : Converters) (lines : List String)
    (st : Status) (h : parseLines conv lines = ParseResult.ok st) :
    (∃ l ∈ lines, pyStartsWith (pyStrip l) ("HEADER," ++ client_list_label) = true) ∧
    (∃ l ∈ lines, pyStartsWith (pyStrip l) ("HEADER," ++ routing_table_label) = true) := by
  have hinv0 : CursorInv lines (initState lines) := by
    constructor
    · intro l2 hl2
      cases hl2
    · intro x hx
      exact hx
  unfold parseLines parse_log at h
  cases hpi : parse_impl conv (initState lines) with
  | error e => rw [hpi] at h; cases e <;> cases h
  | ok s =>
    unfold parse_impl at hpi
    cases hcs : clients_stage conv (initState lines) with
    | error e => rw [hcs] at hpi; cases hpi
    | ok p =>
      rcases p with ⟨cps, st2⟩
      rw [hcs] at hpi
      dsimp only at hpi
      unfold clients_stage at hcs
      cases heh : expect_header client_list_label (initState lines) with
      | error e => rw [heh] at hcs; cases hcs
      | ok q =>
        rcases q with ⟨labels1, st1⟩
        rw [heh] at hcs
        dsimp only at hcs
        obtain ⟨hinv1, hex1⟩ :=
          expect_headerF_ok_inv client_list_label _ _ _ _ hinv0 heh
        cases hpf : parse_fields (setClientField conv) {} labels1 st1 with
        | error e => rw [hpf] at hcs; cases hcs
        | ok q2 =>
          rcases q2 with ⟨cs, st2b⟩
          rw [hpf] at hcs
          dsimp only at hcs
          injection hcs with hcs2
          injection hcs2 with hcps hst2
          subst hst2
          have hinv2 : CursorInv lines st2b :=
            parse_fieldsF_ok_inv (setClientField conv) {} labels1 _ _ _ _ hinv1 hpf
          cases hrs : routes_stage conv st2b with
          | error e => rw [hrs] at hpi; cases hpi
          | ok q3 =>
            rcases q3 with ⟨rps, st3⟩
            unfold routes_stage at hrs
            cases heh2 : expect_header routing_table_label st2b with
            | error e => rw [heh2] at hrs; cases hrs
            | ok q4 =>
              rcases q4 with ⟨labels2, st4⟩
              obtain ⟨_, hex2⟩ :=
                expect_headerF_ok_inv routing_table_label _ _ _ _ hinv2 heh2
              exact ⟨hex1, hex2⟩

/-- C5 (witness): on the complete two-section input `scenarioA_cid` both
header lines are present in the input. -/
theorem c5_success_requires_both_headers_witness :
    (∃ l ∈ scenarioA_cid,
      pyStartsWith (pyStrip l) ("HEADER," ++ client_list_label) = true) ∧
    (∃ l ∈ scenarioA_cid,
      pyStartsWith (pyStrip l) ("HEADER," ++ routing_table_label) = true) := by
  exact c5_success_requires_both_headers specConverters scenarioA_cid
    scenarioA_cid_status (by rfl)
